import Mathlib

/-!
Verification development for the rag-voice-interviewer repository.

The definitions below are a shallow embedding of the Python sources:
`rag.py` (metrics formatting, interviewer reply failover, final score
parsing), `tts.py` (synthesis response byte extraction and credential
failover), `firebase_client.py` (attempt counting and score persistence)
and `main.py` (the websocket session orchestrator loop).  External
services (speech-to-text, the LLM pool, synthesis, Firestore) are
modelled as explicit oracle values describing the outcome of each call.
-/

namespace RagVoice

/-! ### Basic Python-style string helpers (over `List Char`) -/

/-- Characters treated as whitespace by Python `str.strip` (ASCII model). -/
def isPySpace (c : Char) : Bool :=
  c = ' ' || c = '\t' || c = '\n' || c = '\r' || c = Char.ofNat 11 || c = Char.ofNat 12

/-- Python `str.strip()` on a character list: drop whitespace at both ends. -/
def stripChars (cs : List Char) : List Char :=
  ((cs.dropWhile isPySpace).reverse.dropWhile isPySpace).reverse

/-- Python `str.strip()` on a `String`. -/
def pyStrip (s : String) : String :=
  ⟨stripChars s.data⟩

/-- Does `cs` begin with the pattern `pat`?  (Python `str.startswith`.) -/
def beginsWith : List Char → List Char → Bool
  | _, [] => true
  | [], _ :: _ => false
  | c :: cs, p :: ps => c = p && beginsWith cs ps

/-- Fuel-driven worker for `replaceAll`: replace every (non-overlapping,
left-to-right) occurrence of `pat` by the empty string, as Python
`str.replace(pat, "")` does. -/
def replaceAllF (pat : List Char) : Nat → List Char → List Char
  | 0, _ => []
  | _ + 1, [] => []
  | fuel + 1, c :: cs =>
    if pat ≠ [] ∧ beginsWith (c :: cs) pat then
      replaceAllF pat fuel ((c :: cs).drop pat.length)
    else
      c :: replaceAllF pat fuel cs

/-- Python `str.replace(pat, "")` over character lists. -/
def replaceAll (pat cs : List Char) : List Char :=
  replaceAllF pat (cs.length + 1) cs

/-- Split a character list at every occurrence of `sep`, keeping empty
segments (Python `str.split(sep)` for a one-character separator). -/
def splitOnChar (sep : Char) : List Char → List (List Char)
  | [] => [[]]
  | c :: cs =>
    match splitOnChar sep cs with
    | [] => [[]]
    | seg :: rest => if c = sep then [] :: seg :: rest else (c :: seg) :: rest

/-- Numeric value of a run of decimal digit characters. -/
def digitsToNat (cs : List Char) : Nat :=
  cs.foldl (fun acc c => acc * 10 + (c.toNat - 48)) 0

/-- Worker with explicit fuel so that the definition is structural. -/
def natStrF : Nat → Nat → List Char
  | 0, _ => []
  | fuel + 1, n =>
    if n < 10 then [Char.ofNat (48 + n)]
    else natStrF fuel (n / 10) ++ [Char.ofNat (48 + n % 10)]

/-- Base-10 rendering of a natural number (Python `str(n)` for `n ≥ 0`). -/
def natStr (n : Nat) : String :=
  ⟨natStrF (n + 1) n⟩

/-- Base-10 rendering of an integer (Python `str(n)`). -/
def intStr (n : Int) : String :=
  if n < 0 then "-" ++ natStr n.natAbs else natStr n.natAbs

/-! ### Python `int(...)` parsing

`int(s)` strips whitespace, accepts one optional sign and a nonempty
digit sequence in which single underscores may separate digits, and
raises `ValueError` otherwise (modelled by `none`). -/

/-- Parse the digits (with optional single separating underscores) that
follow an initial digit `acc`. -/
def parseDigitsRest : List Char → Nat → Option Nat
  | [], acc => some acc
  | c :: cs, acc =>
    if c.isDigit then parseDigitsRest cs (acc * 10 + (c.toNat - 48))
    else if c = '_' then
      match cs with
      | d :: cs' => if d.isDigit then parseDigitsRest cs' (acc * 10 + (d.toNat - 48)) else none
      | [] => none
    else none

/-- Python `int(s)` (ASCII model): `none` models a raised `ValueError`. -/
def parseIntPy (s : String) : Option Int :=
  match stripChars s.data with
  | [] => none
  | '-' :: rest =>
    match rest with
    | d :: rest' =>
      if d.isDigit then (parseDigitsRest rest' (d.toNat - 48)).map (fun n => -(n : Int)) else none
    | [] => none
  | '+' :: rest =>
    match rest with
    | d :: rest' =>
      if d.isDigit then (parseDigitsRest rest' (d.toNat - 48)).map (fun n => (n : Int)) else none
    | [] => none
  | d :: rest =>
    if d.isDigit then (parseDigitsRest rest (d.toNat - 48)).map (fun n => (n : Int)) else none

/-! ### The regex `\b\d+\b` (Python `re.findall`, ASCII model) -/

/-- Word characters for the `\b` boundary (ASCII model of Python `\w`). -/
def isWordChar (c : Char) : Bool :=
  c.isAlpha || c.isDigit || c = '_'

/-- Fuel-driven scan returning every maximal digit run whose neighbours
(if any) are non-word characters, in order of occurrence: exactly the
matches of the Python regex `\b\d+\b` over `s`. -/
def intTokensF : Nat → Option Char → List Char → List (List Char)
  | 0, _, _ => []
  | _ + 1, _, [] => []
  | fuel + 1, prev, c :: cs =>
    let prevOk := match prev with
      | none => true
      | some p => !isWordChar p
    if c.isDigit && prevOk then
      let run := c :: cs.takeWhile Char.isDigit
      let rest := cs.dropWhile Char.isDigit
      let afterOk := match rest with
        | [] => true
        | d :: _ => !isWordChar d
      let tail := intTokensF fuel (some c) rest
      if afterOk then run :: tail else tail
    else
      intTokensF fuel (some c) cs

/-- All matches of the Python regex `\b\d+\b` over `s`. -/
def intTokens (s : String) : List (List Char) :=
  intTokensF (s.data.length + 1) none s.data

/-- The first integer token of `s`, if any. -/
def firstIntToken (s : String) : Option Nat :=
  (intTokens s).head?.map digitsToNat

/-! ### Credential-pool failover (`rag.py`, the `for client in llm_clients` loops)

Each client attempt is modelled by an `Except String String`: `.ok text`
is a successful completion, `.error e` a raised exception with message
`e`.  The loop keeps the last observed error and raises `RuntimeError`
(modelled as `.error (some lastError)`, or `.error none` when the pool
is empty and `last_error` is still `None`) once every client failed. -/

def tryClients : List (Except String String) → Option String → Except (Option String) String
  | [], last => .error last
  | c :: rest, last =>
    match c with
    | .ok t => .ok t
    | .error e => tryClients rest (some e)

/-- `generate_interviewer_reply` (`rag.py` lines 194-236), restricted to
its failover behaviour: the prompt assembly is irrelevant to the claims,
and the outcome of each client for the assembled prompt is an oracle.  A
successful completion has its `content` returned stripped. -/
def generate_interviewer_reply (clients : List (Except String String)) :
    Except (Option String) String :=
  (tryClients clients none).map pyStrip

/-! ### Final-score parsing (`rag.py`, `generate_final_score` lines 299-336) -/

/-- A final score with justification (`{"score": ..., "justification": ...}`). -/
structure ScoreResult where
  score : Int
  justification : String
  deriving DecidableEq, Repr

/-- The line-scanning loop of `generate_final_score`: walk the lines of the
response; a line starting with `SCORE:` overwrites `score_line` with the
line stripped of every `SCORE:` occurrence and then whitespace-stripped;
similarly for `JUSTIFICATION:`. -/
def scanLines : List (List Char) → List Char × List Char → List Char × List Char
  | [], acc => acc
  | l :: rest, (sl, jl) =>
    if beginsWith l "SCORE:".data then
      scanLines rest (stripChars (replaceAll "SCORE:".data l), jl)
    else if beginsWith l "JUSTIFICATION:".data then
      scanLines rest (sl, stripChars (replaceAll "JUSTIFICATION:".data l))
    else
      scanLines rest (sl, jl)

/-- The `score_line` extracted from a raw response. -/
def scoreLineOf (response : String) : String :=
  ⟨(scanLines (splitOnChar '\n' response.data) ([], [])).1⟩

/-- The `justification_line` extracted from a raw response. -/
def justificationLineOf (response : String) : String :=
  ⟨(scanLines (splitOnChar '\n' response.data) ([], [])).2⟩

/-- The parsing stage of `generate_final_score` applied to one (already
stripped) raw model response: parse the `SCORE:` line as an int and clamp
it into `[0, 100]` when out of range; if that parse raises, fall back to
the first `\b\d+\b` token of the whole response, or `50` if none; the
justification falls back to the whole response when the
`JUSTIFICATION:` line is missing or empty. -/
def parse_final_response (response : String) : ScoreResult :=
  let sl := scoreLineOf response
  let jl := justificationLineOf response
  let score : Int :=
    match parseIntPy sl with
    | some n => if 0 ≤ n ∧ n ≤ 100 then n else max 0 (min 100 n)
    | none =>
      match firstIntToken response with
      | some t => (t : Int)
      | none => 50
  let justification := if jl = "" then response else jl
  ⟨score, justification⟩

/-- `generate_final_score` (`rag.py` lines 239-336): try each scoring
client in order; the stripped text of the first successful completion is
parsed; exhausting the pool raises with the last observed error. -/
def generate_final_score (clients : List (Except String String)) :
    Except (Option String) ScoreResult :=
  (tryClients clients none).map (fun content => parse_final_response (pyStrip content))

/-! ### Delivery metrics and `format_metrics` (`rag.py` lines 102-142)

A metrics payload is a JSON object whose recognised keys are all
optional; numbers are modelled as rationals.  `Option DeliveryMetrics`
models the `Optional[Dict]` parameter: `none` stands for the falsy
values (`None` or the empty dict `{}`). -/

structure DeliveryMetrics where
  speechDuration : Option ℚ
  totalDuration : Option ℚ
  silenceRatio : Option ℚ
  pauseCount : Option Nat
  startLatency : Option ℚ
  deriving DecidableEq, Repr

/-- The falsy metrics payload (`None` or `{}`). -/
abbrev Metrics := Option DeliveryMetrics

/-- A nonempty metrics dict none of whose recognised keys is set. -/
def noFieldMetrics : DeliveryMetrics := ⟨none, none, none, none, none⟩

/-- Python `str(...)` of a JSON number, modelled on rationals.  The exact
rendering never matters to any claim; only its concrete prefix and
suffix context inside a formatted part do. -/
def qRepr (q : ℚ) : String :=
  if q.den = 1 then intStr q.num else intStr q.num ++ "/" ++ natStr q.den

/-- Python `f"{x:.1f}"` rendering, rounding to one decimal place. -/
def formatFixed1 (q : ℚ) : String :=
  let n : Int := ⌊q * 10 + 1 / 2⌋
  intStr (n / 10) ++ "." ++ natStr (n % 10).natAbs

/-- The `spoke for ...` part of `format_metrics`: present only when both
durations are present and truthy (nonzero). -/
def speakingParts (m : DeliveryMetrics) : List String :=
  match m.speechDuration, m.totalDuration with
  | some a, some b =>
    if a = 0 ∨ b = 0 then []
    else ["spoke for " ++ qRepr a ++ "s out of " ++ qRepr b ++ "s total recording"]
  | _, _ => []

/-- The silence-ratio part of `format_metrics`: one of four qualitative
bands whenever the ratio is present (`is not None`). -/
def silenceParts (m : DeliveryMetrics) : List String :=
  match m.silenceRatio with
  | some r =>
    [if r < 1/5 then "very fluent with minimal pauses"
     else if r < 2/5 then "good fluency with some natural pauses"
     else if r < 3/5 then "moderate pauses during speech"
     else "significant pauses or hesitation"]
  | none => []

/-- The pause-count part of `format_metrics`. -/
def pauseParts (m : DeliveryMetrics) : List String :=
  match m.pauseCount with
  | some n =>
    [if n = 0 then "no noticeable breaks"
     else if n ≤ 2 then natStr n ++ " brief pause(s)"
     else natStr n ++ " pauses detected"]
  | none => []

/-- The start-latency part of `format_metrics`. -/
def latencyParts (m : DeliveryMetrics) : List String :=
  match m.startLatency with
  | some l =>
    [if l < 1 then "responded immediately"
     else if l < 3 then "started speaking after " ++ formatFixed1 l ++ "s"
     else "took " ++ formatFixed1 l ++ "s to begin response"]
  | none => []

/-- The `parts` list accumulated by `format_metrics`, in append order. -/
def format_metrics_parts (m : DeliveryMetrics) : List String :=
  speakingParts m ++ silenceParts m ++ pauseParts m ++ latencyParts m

/-- Python `"; ".join(parts)`. -/
def joinSemicolon : List String → String
  | [] => ""
  | [p] => p
  | p :: q :: rest => p ++ "; " ++ joinSemicolon (q :: rest)

/-- `format_metrics` (`rag.py` lines 102-142). -/
def format_metrics (m : Metrics) : String :=
  match m with
  | none => "Audio analysis not available for this response."
  | some dm =>
    let parts := format_metrics_parts dm
    if parts = [] then "Audio captured successfully" else joinSemicolon parts

/-- The four qualitative silence bands, in threshold order. -/
def bandStrings : List String :=
  ["very fluent with minimal pauses",
   "good fluency with some natural pauses",
   "moderate pauses during speech",
   "significant pauses or hesitation"]

/-- Which band the threshold chain of the code selects for silence ratio `r`. -/
def silenceBandIndex (r : ℚ) : Nat :=
  if r < 1/5 then 0 else if r < 2/5 then 1 else if r < 3/5 then 2 else 3

/-! ### Synthesis adapter (`tts.py`)

A synthesis response can arrive in heterogeneous shapes; `PyVal` is the
value universe `_extract_bytes` discriminates on.  Bytes are `List Nat`
(each `< 256` for well-formed inputs; nothing below depends on that). -/

inductive PyVal where
  /-- A `bytes`/`bytearray` value. -/
  | pvBytes (bs : List Nat)
  /-- A `str` value. -/
  | pvStr (s : String)
  /-- A dict, as an association list in insertion order. -/
  | pvDict (entries : List (String × PyVal))
  /-- An object carrying attribute/value pairs (none named `read`). -/
  | pvObj (attrs : List (String × PyVal))
  /-- A file-like object whose `read()` returns the inner value. -/
  | pvReadable (inner : PyVal)
  /-- An iterable yielding the listed items. -/
  | pvIter (items : List PyVal)
  /-- Any other non-iterable value (`None`, numbers, ...). -/
  | pvOther

/-- `_strip_data_url` (`tts.py` lines 13-21): drop a leading
`data:...;base64,` (or `data:...,`) prefix. -/
def stripDataUrl (s : String) : String :=
  let marker := ";base64,".data
  let rec split1 : List Char → Option (List Char)
    | [] => none
    | c :: cs =>
      if beginsWith (c :: cs) marker then some ((c :: cs).drop marker.length)
      else split1 cs
  match split1 s.data with
  | some rest => ⟨rest⟩
  | none =>
    if beginsWith s.data "data:".data ∧ s.data.contains ',' then
      ⟨(s.data.dropWhile (· ≠ ',')).drop 1⟩
    else s

/-- Value of one base64 alphabet character. -/
def b64CharVal (c : Char) : Option Nat :=
  if 'A' ≤ c ∧ c ≤ 'Z' then some (c.toNat - 65)
  else if 'a' ≤ c ∧ c ≤ 'z' then some (c.toNat - 97 + 26)
  else if '0' ≤ c ∧ c ≤ '9' then some (c.toNat - 48 + 52)
  else if c = '+' then some 62
  else if c = '/' then some 63
  else none

/-- Decoding loop of `binascii.a2b_base64` in non-strict mode: invalid
characters are skipped, `=` before quad position 2 is ignored, `=` at
quad position 2 or 3 ends decoding once the quad is padded out, and a
partial final quad raises (`none`). State: remaining input, quad
position (0-3), pads seen in the current quad, leftover bits, output
accumulator (reversed). -/
def a2bLoop : List Char → Nat → Nat → Nat → List Nat → Option (List Nat)
  | [], 0, _, _, acc => some acc.reverse
  | [], _ + 1, _, _, _ => none
  | c :: rest, qp, pads, left, acc =>
    if c = '=' then
      if 2 ≤ qp then
        if 4 ≤ qp + pads + 1 then some acc.reverse
        else a2bLoop rest qp (pads + 1) left acc
      else a2bLoop rest qp pads left acc
    else
      match b64CharVal c with
      | none => a2bLoop rest qp pads left acc
      | some v =>
        match qp with
        | 0 => a2bLoop rest 1 0 v acc
        | 1 => a2bLoop rest 2 0 (v % 16) ((left * 4 + v / 16) :: acc)
        | 2 => a2bLoop rest 3 0 (v % 4) ((left * 16 + v / 4) :: acc)
        | _ => a2bLoop rest 0 0 0 ((left * 64 + v) :: acc)

/-- `base64.b64decode` on a `str` argument: the string must be pure
ASCII (else `ValueError`), then non-strict `a2b_base64` decoding. -/
def b64decode (s : String) : Option (List Nat) :=
  if s.data.all (fun c => c.toNat < 128) then a2bLoop s.data 0 0 0 [] else none

/-- UTF-8 bytes of one character. -/
def utf8Char (c : Char) : List Nat :=
  let n := c.toNat
  if n < 128 then [n]
  else if n < 2048 then [192 + n / 64, 128 + n % 64]
  else if n < 65536 then [224 + n / 4096, 128 + n / 64 % 64, 128 + n % 64]
  else [240 + n / 262144, 128 + n / 4096 % 64, 128 + n / 64 % 64, 128 + n % 64]

/-- Python `s.encode("utf-8")`. -/
def utf8Encode (s : String) : List Nat :=
  s.data.foldr (fun c acc => utf8Char c ++ acc) []

/-- The string branch of `_extract_bytes` (`tts.py` lines 36-41): strip a
data-URL prefix and whitespace, then try base64; on `ValueError` fall
back to the UTF-8 encoding of the stripped string.  This branch always
returns. -/
def extractFromStr (s : String) : List Nat :=
  let s' := pyStrip (stripDataUrl s)
  match b64decode s' with
  | some bs => bs
  | none => utf8Encode s'

/-- The candidate keys probed on dict responses, in order. -/
def dictKeys : List String :=
  ["audio", "data", "result", "audio_base64", "base64", "content"]

/-- The candidate attributes probed on object responses, in order. -/
def objAttrs : List String :=
  ["content", "raw", "data", "audio", "body"]

/-- First binding of `k` in an association list (Python dict lookup). -/
def assocFind (k : String) : List (String × PyVal) → Option PyVal
  | [] => none
  | (k', v) :: rest => if k' = k then some v else assocFind k rest

/-- Fuel-driven worker for `_extract_bytes` (`tts.py` lines 24-99); the
fuel only serves to make the nested recursion structural and always
suffices (see `extractBytes`). -/
def extractBytesF : Nat → PyVal → List Nat
  | 0, _ => []
  | fuel + 1, v =>
    match v with
    | .pvBytes bs => bs
    | .pvStr s => extractFromStr s
    | .pvDict entries =>
      -- keyed lookup pass: first candidate key whose value extracts nonempty
      let keyed := dictKeys.foldl
        (fun found k =>
          match found with
          | some b => some b
          | none =>
            match assocFind k entries with
            | some w =>
              let b := extractBytesF fuel w
              if b ≠ [] then some b else none
            | none => none)
        none
      match keyed with
      | some b => b
      | none =>
        -- scan values for long base64-looking strings
        let scanned := entries.foldl
          (fun found kv =>
            match found with
            | some b => some b
            | none =>
              match kv.2 with
              | .pvStr s =>
                if 100 < s.data.length then
                  match b64decode (stripDataUrl s) with
                  | some bs => some bs
                  | none => none
                else none
              | _ => none)
          none
        match scanned with
        | some b => b
        | none => []
    | .pvObj attrs =>
      let found := objAttrs.foldl
        (fun found a =>
          match found with
          | some b => some b
          | none =>
            match assocFind a attrs with
            | some w =>
              let b := extractBytesF fuel w
              if b ≠ [] then some b else none
            | none => none)
        none
      match found with
      | some b => b
      | none => []
    | .pvReadable inner => extractBytesF fuel inner
    | .pvIter items =>
      let parts := items.foldl
        (fun acc item =>
          match item with
          | .pvBytes bs => acc ++ [bs]
          | _ =>
            let b := extractBytesF fuel item
            if b ≠ [] then acc ++ [b] else acc)
        []
      if parts ≠ [] then parts.foldl (· ++ ·) [] else []
    | .pvOther => []

mutual

/-- Depth of a `PyVal` tree, used to pick a sufficient fuel. -/
def pyDepth : PyVal → Nat
  | .pvBytes _ => 0
  | .pvStr _ => 0
  | .pvDict entries => 1 + pyDepthEntries entries
  | .pvObj attrs => 1 + pyDepthEntries attrs
  | .pvReadable inner => 1 + pyDepth inner
  | .pvIter items => 1 + pyDepthItems items
  | .pvOther => 0

/-- Maximal depth of the values of an association list. -/
def pyDepthEntries : List (String × PyVal) → Nat
  | [] => 0
  | (_, v) :: rest => max (pyDepth v) (pyDepthEntries rest)

/-- Maximal depth of a list of values. -/
def pyDepthItems : List PyVal → Nat
  | [] => 0
  | v :: rest => max (pyDepth v) (pyDepthItems rest)

end

/-- `_extract_bytes` (`tts.py` lines 24-99): total, returns `[]` (the
empty bytes) on total extraction failure. -/
def extractBytes (v : PyVal) : List Nat :=
  extractBytesF (pyDepth v + 1) v

/-- Standard base64 alphabet character for a 6-bit value. -/
def b64Char (n : Nat) : Char :=
  if n < 26 then Char.ofNat (65 + n)
  else if n < 52 then Char.ofNat (97 + n - 26)
  else if n < 62 then Char.ofNat (48 + n - 52)
  else if n = 62 then '+' else '/'

/-- `base64.b64encode(...).decode("utf-8")`. -/
def b64encode : List Nat → String
  | [] => ""
  | [a] =>
    ⟨[b64Char (a / 4), b64Char (a % 4 * 16), '=', '=']⟩
  | [a, b] =>
    ⟨[b64Char (a / 4), b64Char (a % 4 * 16 + b / 16), b64Char (b % 16 * 4), '=']⟩
  | a :: b :: c :: rest =>
    (⟨[b64Char (a / 4), b64Char (a % 4 * 16 + b / 16),
       b64Char (b % 16 * 4 + c / 64), b64Char (c % 64)]⟩ : String) ++ b64encode rest

/-- Outcome of one synthesis credential: `none` when `speech.create`
raises, `some v` when it returns response value `v`. -/
abbrev TtsClient := Option PyVal

/-- `tts_text_to_base64_wav` (`tts.py` lines 115-150): with no client the
result is `None`; otherwise try each client in order, treating a raised
call or an empty extraction as a failure of that credential; the first
nonempty extraction is base64-encoded and returned. -/
def tts_text_to_base64_wav (clients : List TtsClient) : Option String :=
  match clients with
  | [] => none
  | c :: rest =>
    match c with
    | none => tts_text_to_base64_wav rest
    | some resp =>
      let audioData := extractBytes resp
      if audioData = [] then tts_text_to_base64_wav rest
      else some (b64encode audioData)

/-! ### Attempt counting and score persistence (`firebase_client.py`, `main.py`)

The `interviews/{interviewId}` document is reduced to the fields the
code reads or writes.  An absent optional field models both a missing
key and a stored `None` (both make `data.get("attempt_count", 0) or 0`
yield `0`). -/

structure InterviewDoc where
  attemptCount : Option Nat
  storedScore : Option Int
  storedJustification : Option String
  deriving DecidableEq, Repr

/-- Outcome of reading `interviews/{interviewId}`: `.error ()` models a
raised Firestore exception, `.ok none` a non-existent document. -/
abbrev DocRead := Except Unit (Option InterviewDoc)

/-- The attempt number computed at session start (`main.py` lines 71-80):
`(data.get("attempt_count", 0) or 0) + 1` when the document exists, `1`
when it does not, and `1` when the read raises. -/
def currentAttemptAtStart (readResult : DocRead) : Nat :=
  match readResult with
  | .error _ => 1
  | .ok none => 1
  | .ok (some d) => d.attemptCount.getD 0 + 1

/-- `save_interview_score` (`firebase_client.py` lines 134-172): read the
prior document, compute `prior stored value + 1` (or `1` with no prior
document), merge-write the score, justification and new counter, and
return the counter; any raised exception makes it return `1` with the
store unchanged.  The result pairs the returned counter with the store
contents after the call. -/
def save_interview_score (prior : DocRead) (writeOk : Bool) (score : Int)
    (justification : String) : Nat × DocRead :=
  match prior with
  | .error e => (1, .error e)
  | .ok doc =>
    let ac := match doc with
      | some d => d.attemptCount.getD 0 + 1
      | none => 1
    if writeOk then (ac, .ok (some ⟨some ac, some score, some justification⟩))
    else (1, .ok doc)

/-! ### The session orchestrator (`main.py`, `websocket_endpoint` lines 135-314)

One iteration of the `while True` loop is embedded as a step function on
an explicit session state.  Outcomes of the external calls made during
the step (generation pool, synthesis pool, scoring pool, Firestore) are
supplied as oracles.  Speech-to-text is folded into the inbound audio
message: the code maps both an empty transcript and a raised
transcription error to `user_text = ""`. -/

/-- One entry of `chat_hist`. -/
structure ChatMsg where
  role : String
  content : String
  deriving DecidableEq, Repr

/-- One persisted turn record (`save_user_response` call site). -/
structure TurnRecord where
  questionIndex : Nat
  question : String
  answer : String
  metrics : Metrics
  attemptNumber : Nat
  deriving DecidableEq, Repr

/-- Outbound channel messages (shapes from `main.py`). -/
inductive OutMsg where
  /-- `{"type": "transcript", ...}`. -/
  | transcriptMsg (questionIndex : Nat) (transcript : String) (metrics : Metrics)
  /-- `{"type": "llm_response", ...}` with optional base64 audio. -/
  | llmResponse (text : String) (questionIndex : Nat) (audioBase64 : Option String)
  /-- `{"type": "final_score", ...}`. -/
  | finalScore (score : Int) (justification : String) (attemptCount : Nat)
  /-- A bare `{"text": ...}` notice (empty-transcript or error notices). -/
  | notice (text : String)
  deriving DecidableEq, Repr

/-- Inbound channel messages, after JSON decoding. -/
inductive InMsg where
  /-- A `{"type": "metrics", ...}` text frame; `questionIndex` is absent
  when the payload has no such key (the code then defaults to the
  current cursor). -/
  | metricsMsg (questionIndex : Option Int) (metrics : Metrics)
  /-- Any other text frame (non-`metrics` JSON or unparsable text). -/
  | otherText
  /-- A binary audio frame together with its transcription outcome:
  `""` models both an empty transcript and a raised transcription
  error. -/
  | audio (transcript : String)

/-- Dict insert (Python `d[k] = v`): overwrite in place or append. -/
def dictInsert (k : Int) (v : Metrics) : List (Int × Metrics) → List (Int × Metrics)
  | [] => [(k, v)]
  | (k', v') :: rest => if k' = k then (k, v) :: rest else (k', v') :: dictInsert k v rest

/-- Dict lookup (Python `d[k]` / `k in d`). -/
def dictGet (k : Int) : List (Int × Metrics) → Option Metrics
  | [] => none
  | (k', v) :: rest => if k' = k then some v else dictGet k rest

/-- Dict removal, keeping order of the remaining entries. -/
def dictRemove (k : Int) : List (Int × Metrics) → List (Int × Metrics)
  | [] => []
  | (k', v) :: rest => if k' = k then rest else (k', v) :: dictRemove k rest

/-- Python `d.pop(k, {})`: the removed value (default `{}`, i.e. `none`)
together with the remaining dict. -/
def dictPop (k : Int) (d : List (Int × Metrics)) : Metrics × List (Int × Metrics) :=
  ((dictGet k d).getD none, dictRemove k d)

/-- The mutable state of one websocket session. -/
structure SessionState where
  currentQIndex : Nat
  chatHist : List ChatMsg
  metricsBuffer : List (Int × Metrics)
  metricsByQuestion : List (Int × Metrics)
  savedResponses : List TurnRecord
  sent : List OutMsg
  closed : Bool
  deriving DecidableEq, Repr

/-- Outcomes of the external calls available to one loop iteration. -/
structure Oracles where
  /-- Generation pool outcomes for `generate_interviewer_reply`. -/
  llmClients : List (Except String String)
  /-- Synthesis pool outcomes for `tts_text_to_base64_wav`. -/
  ttsClients : List TtsClient
  /-- Scoring pool outcomes for `generate_final_score`. -/
  scoreClients : List (Except String String)
  /-- Firestore read of the prior interview document inside
  `save_interview_score`. -/
  scorePrior : DocRead
  /-- Whether the merge-write inside `save_interview_score` succeeds. -/
  scoreWriteOk : Bool

/-- The textual error notice emitted when the generation pool is
exhausted (`err_msg = f"Error: {str(e)}"` for the raised
`RuntimeError`). -/
def errNoticeText (lastError : Option String) : String :=
  "Error: All Groq LLM keys failed. Last error: " ++ lastError.getD "None"

/-- One iteration of the websocket receive loop (`main.py` lines
136-314), processing a single inbound message. -/
def processMessage (questions : List String) (attempt : Nat) (o : Oracles)
    (st : SessionState) (msg : InMsg) : SessionState :=
  match msg with
  | .metricsMsg qIdxOpt m =>
    let qIdx : Int := qIdxOpt.getD (st.currentQIndex : Int)
    { st with metricsBuffer := dictInsert qIdx m st.metricsBuffer }
  | .otherText => st
  | .audio userText =>
    if userText = "" then
      { st with sent := st.sent ++ [.notice "Transcription empty or failed."] }
    else
      let popped := dictPop (st.currentQIndex : Int) st.metricsBuffer
      let mergedMetrics := popped.1
      let buffer' := popped.2
      let mbq' := dictInsert (st.currentQIndex : Int) mergedMetrics st.metricsByQuestion
      let hist1 := st.chatHist ++ [⟨"user", userText⟩]
      let currentQuestionText := questions.getD st.currentQIndex ""
      let sent1 := st.sent ++ [.transcriptMsg st.currentQIndex userText mergedMetrics]
      let saved' := st.savedResponses ++
        [⟨st.currentQIndex, currentQuestionText, userText, mergedMetrics, attempt⟩]
      let nextQuestion : Option String :=
        if st.currentQIndex < questions.length - 1 then
          some (questions.getD (st.currentQIndex + 1) "")
        else none
      match generate_interviewer_reply o.llmClients with
      | .error e =>
        { st with
          metricsBuffer := buffer'
          metricsByQuestion := mbq'
          chatHist := hist1
          savedResponses := saved'
          sent := sent1 ++ [.notice (errNoticeText e)] }
      | .ok res =>
        let hist2 := hist1 ++ [⟨"assistant", res⟩]
        let audioBase64 := tts_text_to_base64_wav o.ttsClients
        let sent2 := sent1 ++ [.llmResponse res st.currentQIndex audioBase64]
        match nextQuestion with
        | none =>
          let sent3 :=
            match generate_final_score o.scoreClients with
            | .ok sr =>
              let saveRes := save_interview_score o.scorePrior o.scoreWriteOk
                sr.score sr.justification
              sent2 ++ [.finalScore sr.score sr.justification saveRes.1]
            | .error _ => sent2
          { st with
            metricsBuffer := buffer'
            metricsByQuestion := mbq'
            chatHist := hist2
            savedResponses := saved'
            sent := sent3
            closed := true }
        | some _ =>
          { st with
            metricsBuffer := buffer'
            metricsByQuestion := mbq'
            chatHist := hist2
            savedResponses := saved'
            sent := sent2
            currentQIndex := st.currentQIndex + 1 }

/-! ### Shared lemmas -/

theorem dictGet_insert_self (k : Int) (v : Metrics) (d : List (Int × Metrics)) :
    dictGet k (dictInsert k v d) = some v := by
  induction d with
  | nil => simp [dictInsert, dictGet]
  | cons hd tl ih =>
    obtain ⟨k', v'⟩ := hd
    by_cases h : k' = k
    · simp [dictInsert, dictGet, h]
    · simp [dictInsert, dictGet, h, ih]

theorem dictGet_insert_ne (j k : Int) (hjk : j ≠ k) (v : Metrics)
    (d : List (Int × Metrics)) : dictGet j (dictInsert k v d) = dictGet j d := by
  induction d with
  | nil => simp [dictInsert, dictGet, Ne.symm hjk]
  | cons hd tl ih =>
    obtain ⟨k', v'⟩ := hd
    by_cases h : k' = k
    · subst h
      simp [dictInsert, dictGet, Ne.symm hjk]
    · by_cases h2 : k' = j
      · subst h2
        simp [dictInsert, dictGet, h]
      · simp [dictInsert, dictGet, h, h2, ih]

theorem dictGet_remove_ne (j k : Int) (hjk : j ≠ k) (d : List (Int × Metrics)) :
    dictGet j (dictRemove k d) = dictGet j d := by
  induction d with
  | nil => simp [dictRemove, dictGet]
  | cons hd tl ih =>
    obtain ⟨k', v'⟩ := hd
    by_cases h : k' = k
    · subst h
      simp [dictRemove, dictGet, Ne.symm hjk, ih]
    · by_cases h2 : k' = j
      · subst h2
        simp [dictRemove, dictGet, h]
      · simp [dictRemove, dictGet, h, h2, ih]

theorem dictGet_eq_none_of_not_mem (k : Int) (d : List (Int × Metrics))
    (h : k ∉ d.map Prod.fst) : dictGet k d = none := by
  induction d with
  | nil => simp [dictGet]
  | cons hd tl ih =>
    obtain ⟨k', v'⟩ := hd
    simp only [List.map_cons, List.mem_cons] at h
    push_neg at h
    simp [dictGet, Ne.symm h.1, ih h.2]

theorem dictGet_remove_self (k : Int) (d : List (Int × Metrics))
    (hnd : (d.map Prod.fst).Nodup) : dictGet k (dictRemove k d) = none := by
  induction d with
  | nil => simp [dictRemove, dictGet]
  | cons hd tl ih =>
    obtain ⟨k', v'⟩ := hd
    simp only [List.map_cons, List.nodup_cons] at hnd
    by_cases h : k' = k
    · subst h
      simp only [dictRemove, if_pos rfl]
      exact dictGet_eq_none_of_not_mem _ _ hnd.1
    · simp only [dictRemove, if_neg h, dictGet, if_neg h]
      exact ih hnd.2

theorem tryClients_errors_then_ok (errs : List String) (t : String)
    (rest : List (Except String String)) : ∀ last,
    tryClients (errs.map Except.error ++ Except.ok t :: rest) last = .ok t := by
  induction errs with
  | nil => intro last; simp [tryClients]
  | cons e es ih => intro last; simpa [tryClients] using ih (some e)

theorem tryClients_all_fail (errs : List String) : ∀ last,
    tryClients (errs.map Except.error) last = .error (errs.getLast?.or last) := by
  induction errs with
  | nil => intro last; simp [tryClients]
  | cons e es ih =>
    intro last
    simp only [List.map_cons, tryClients, ih (some e)]
    congr 1
    cases es with
    | nil => simp
    | cons e2 es2 =>
      rw [List.getLast?_cons_cons]
      rcases List.getLast?_eq_getLast (e2 :: es2) (by simp) with h
      rw [h]
      simp [Option.or]

theorem utf8Char_ne_nil (c : Char) : utf8Char c ≠ [] := by
  unfold utf8Char
  dsimp only
  split_ifs <;> simp

theorem utf8Encode_ne_nil (s : String) (h : s.data ≠ []) : utf8Encode s ≠ [] := by
  unfold utf8Encode
  cases hd : s.data with
  | nil => exact absurd hd h
  | cons c cs =>
    simp only [List.foldr_cons]
    intro hcontra
    exact utf8Char_ne_nil c (List.append_eq_nil.mp hcontra).1

/-! ### Claim C1 -/

/-- C1: the claim that every score returned by `generate_final_score`
lies in `[0, 100]` — in particular that the integer taken from the first
integer token of the raw response is clamped when the `SCORE:` line is
missing or non-numeric — is refuted by the code: on the raw response
`"The candidate deserves 150 points."` (which has no `SCORE:` line) the
fallback path returns the first integer token `150` without clamping, so
the returned score exceeds `100`. -/
theorem c1_fallback_score_not_clamped :
    generate_final_score [Except.ok "The candidate deserves 150 points."] =
        .ok ⟨150, "The candidate deserves 150 points."⟩
      ∧ ¬ (150 : Int) ≤ 100 := by
  exact ⟨rfl, by decide⟩

/-! ### Claim C3 -/

/-- C3: an inbound audio segment whose transcription is empty (or whose
transcription call raised, which the code also maps to an empty
transcript) makes the orchestrator emit exactly the failure notice and
leave every piece of session state unchanged: the question cursor, the
conversation history, the persisted turns, the pending metrics buffer
and the finalized per-question metrics all stay as they were. -/
theorem c3_empty_transcript_no_state_change (questions : List String)
    (attempt : Nat) (o : Oracles) (st : SessionState) :
    processMessage questions attempt o st (.audio "") =
        { st with sent := st.sent ++ [.notice "Transcription empty or failed."] }
      ∧ (processMessage questions attempt o st (.audio "")).currentQIndex = st.currentQIndex
      ∧ (processMessage questions attempt o st (.audio "")).chatHist = st.chatHist
      ∧ (processMessage questions attempt o st (.audio "")).savedResponses = st.savedResponses
      ∧ (processMessage questions attempt o st (.audio "")).metricsBuffer = st.metricsBuffer
      ∧ (processMessage questions attempt o st (.audio "")).closed = st.closed := by
  refine ⟨rfl, rfl, rfl, rfl, rfl, rfl⟩

/-! ### Claim C5 -/

/-- C5: attempt counting.  Reading a prior document storing
`attempt_count = n` makes the session start at attempt `n + 1` (so a
stored `3` yields `4`); a successful score persistence computes the
counter as the prior stored value plus one, stores it together with the
score and justification, and returns it; a failed read at session start
defaults the attempt to `1`; and a raised read or write during score
persistence makes `save_interview_score` return `1` (the store is left
unchanged) instead of raising. -/
theorem c5_attempt_counting :
    (∀ (d : InterviewDoc) (n : Nat), d.attemptCount = some n →
        currentAttemptAtStart (.ok (some d)) = n + 1)
    ∧ (∀ (d : InterviewDoc) (n : Nat) (s : Int) (j : String), d.attemptCount = some n →
        save_interview_score (.ok (some d)) true s j =
          (n + 1, .ok (some ⟨some (n + 1), some s, some j⟩)))
    ∧ (∀ e : Unit, currentAttemptAtStart (.error e) = 1)
    ∧ (∀ (prior : DocRead) (s : Int) (j : String),
        (save_interview_score prior false s j).1 = 1)
    ∧ (∀ (s : Int) (j : String), save_interview_score (.error ()) true s j = (1, .error ())) := by
  refine ⟨?_, ?_, ?_, ?_, ?_⟩
  · intro d n h
    simp [currentAttemptAtStart, h]
  · intro d n s j h
    simp [save_interview_score, h]
  · intro e
    rfl
  · intro prior s j
    cases prior with
    | error e => rfl
    | ok doc => simp [save_interview_score]
  · intro s j
    rfl

/-- Witness for C5 at the concrete inputs of the claim: a prior stored
`attempt_count` of `3` yields current attempt `4`, and a successful
persistence stores `attempt_count = 4` and returns `4`; failures yield
`1`. -/
theorem c5_attempt_counting_witness :
    currentAttemptAtStart (.ok (some ⟨some 3, none, none⟩)) = 4
    ∧ save_interview_score (.ok (some ⟨some 3, none, none⟩)) true 80 "solid" =
        (4, .ok (some ⟨some 4, some 80, some "solid"⟩))
    ∧ currentAttemptAtStart (.error ()) = 1
    ∧ (save_interview_score (.ok (some ⟨some 3, none, none⟩)) false 80 "solid").1 = 1 := by
  refine ⟨c5_attempt_counting.1 ⟨some 3, none, none⟩ 3 rfl,
    c5_attempt_counting.2.1 ⟨some 3, none, none⟩ 3 80 "solid" rfl,
    c5_attempt_counting.2.2.1 (),
    c5_attempt_counting.2.2.2.1 (.ok (some ⟨some 3, none, none⟩)) 80 "solid"⟩

/-! ### Claim C6 -/

theorem scanLines_fst_of_no_score_line (lines : List (List Char)) :
    ∀ sl jl, (∀ l ∈ lines, beginsWith l "SCORE:".data = false) →
      (scanLines lines (sl, jl)).1 = sl := by
  induction lines with
  | nil => intro sl jl _; rfl
  | cons l rest ih =>
    intro sl jl h
    have hl := h l (List.mem_cons_self l rest)
    have hrest : ∀ l' ∈ rest, beginsWith l' "SCORE:".data = false :=
      fun l' hm => h l' (List.mem_cons_of_mem l hm)
    by_cases hj : beginsWith l "JUSTIFICATION:".data = true
    · simp only [scanLines, hl, Bool.false_eq_true, if_false, hj, if_true]
      exact ih sl _ hrest
    · simp only [scanLines, hl, Bool.false_eq_true, if_false,
        hj, ih sl jl hrest]

theorem scanLines_snd_of_no_justification_line (lines : List (List Char)) :
    ∀ sl jl, (∀ l ∈ lines, beginsWith l "JUSTIFICATION:".data = false) →
      (scanLines lines (sl, jl)).2 = jl := by
  induction lines with
  | nil => intro sl jl _; rfl
  | cons l rest ih =>
    intro sl jl h
    have hl := h l (List.mem_cons_self l rest)
    have hrest : ∀ l' ∈ rest, beginsWith l' "JUSTIFICATION:".data = false :=
      fun l' hm => h l' (List.mem_cons_of_mem l hm)
    by_cases hs : beginsWith l "SCORE:".data = true
    · simp only [scanLines, hs, if_true]
      exact ih _ jl hrest
    · simp only [scanLines, hs, Bool.false_eq_true, if_false, hl,
        ih sl jl hrest]

/-- C6: parsing fallbacks of `generate_final_score`.  For every raw
model response: when no line starts with `SCORE:` the extracted score
line is empty; whenever the score line fails integer parsing (which
covers both a missing and a non-numeric `SCORE:` line) the score is the
first `\b\d+\b` integer token found anywhere in the raw response, with
`50` as the default when the response contains no such token; when no
line starts with `JUSTIFICATION:` the justification is the entire raw
response text; and `generate_final_score` applies exactly this parse to
the first successful completion (stripped). -/
theorem c6_parse_fallbacks (r : String) :
    ((∀ l ∈ splitOnChar '\n' r.data, beginsWith l "SCORE:".data = false) →
        scoreLineOf r = "")
    ∧ (parseIntPy (scoreLineOf r) = none →
        (parse_final_response r).score = (((firstIntToken r).getD 50 : Nat) : Int))
    ∧ ((∀ l ∈ splitOnChar '\n' r.data, beginsWith l "JUSTIFICATION:".data = false) →
        (parse_final_response r).justification = r)
    ∧ generate_final_score [Except.ok r] = .ok (parse_final_response (pyStrip r)) := by
  refine ⟨?_, ?_, ?_, rfl⟩
  · intro h
    unfold scoreLineOf
    rw [scanLines_fst_of_no_score_line _ _ _ h]
  · intro h
    simp only [parse_final_response, h]
    cases hf : firstIntToken r with
    | none => simp
    | some n => simp
  · intro h
    have hj : justificationLineOf r = "" := by
      unfold justificationLineOf
      rw [scanLines_snd_of_no_justification_line _ _ _ h]
    simp [parse_final_response, hj]

/-- Witness for C6: a response with no `SCORE:` and no `JUSTIFICATION:`
line; its score is its first integer token `85` and its justification is
the whole response. -/
theorem c6_parse_fallbacks_witness :
    parseIntPy (scoreLineOf "Overall 85 out of 100, strong delivery.") = none
    ∧ (parse_final_response "Overall 85 out of 100, strong delivery.").score = 85
    ∧ (parse_final_response "Overall 85 out of 100, strong delivery.").justification =
        "Overall 85 out of 100, strong delivery." := by
  refine ⟨by decide, ?_, ?_⟩
  · exact ((c6_parse_fallbacks "Overall 85 out of 100, strong delivery.").2.1
      (by decide)).trans (by decide)
  · exact (c6_parse_fallbacks "Overall 85 out of 100, strong delivery.").2.2.1 (by decide)

/-! ### Claim C2 -/

/-- C2: the generation failover and the orchestrator hard-failure
behaviour.  `generate_interviewer_reply` returns the first successful
client completion (stripped), however many failed attempts precede it;
when every client in the pool fails it raises, carrying the last
observed error.  When that hard failure occurs during a turn, the
orchestrator appends exactly one error notice after the transcript
message, keeps the session open (`closed` unchanged), does not advance
the question cursor, and appends only the user entry — no assistant
entry — to the conversation history for that turn. -/
theorem c2_generation_failover :
    (∀ (errs : List String) (t : String) (rest : List (Except String String)),
        generate_interviewer_reply (errs.map Except.error ++ Except.ok t :: rest) =
          .ok (pyStrip t))
    ∧ (∀ errs : List String,
        generate_interviewer_reply (errs.map Except.error) = .error errs.getLast?)
    ∧ (∀ (questions : List String) (attempt : Nat) (o : Oracles) (st : SessionState)
        (t : String) (e : Option String), t ≠ "" →
        generate_interviewer_reply o.llmClients = .error e →
        processMessage questions attempt o st (.audio t) =
          { st with
            metricsBuffer := (dictPop (st.currentQIndex : Int) st.metricsBuffer).2
            metricsByQuestion := dictInsert (st.currentQIndex : Int)
              (dictPop (st.currentQIndex : Int) st.metricsBuffer).1 st.metricsByQuestion
            chatHist := st.chatHist ++ [⟨"user", t⟩]
            savedResponses := st.savedResponses ++
              [⟨st.currentQIndex, questions.getD st.currentQIndex "", t,
                (dictPop (st.currentQIndex : Int) st.metricsBuffer).1, attempt⟩]
            sent := st.sent ++
              [.transcriptMsg st.currentQIndex t
                 (dictPop (st.currentQIndex : Int) st.metricsBuffer).1,
               .notice (errNoticeText e)] }) := by
  refine ⟨?_, ?_, ?_⟩
  · intro errs t rest
    unfold generate_interviewer_reply
    rw [tryClients_errors_then_ok errs t rest none]
    rfl
  · intro errs
    unfold generate_interviewer_reply
    rw [tryClients_all_fail errs none]
    rw [Option.or_none]
    rfl
  · intro questions attempt o st t e ht hgen
    simp only [processMessage, if_neg ht, hgen]
    simp [List.append_assoc]

/-- Witness for C2: a two-credential pool where both clients fail; the
generator raises with the last error, and the orchestrator keeps the
cursor at `0`, stays open, appends only the user history entry and emits
one error notice after the transcript message. -/
theorem c2_generation_failover_witness :
    generate_interviewer_reply [Except.error "boom1", Except.error "boom2"] =
        .error (some "boom2")
    ∧ processMessage ["Q1", "Q2"] 1
        { llmClients := [Except.error "boom1", Except.error "boom2"], ttsClients := [],
          scoreClients := [], scorePrior := .error (), scoreWriteOk := true }
        { currentQIndex := 0, chatHist := [⟨"assistant", "intro"⟩], metricsBuffer := [],
          metricsByQuestion := [], savedResponses := [], sent := [], closed := false }
        (.audio "my answer") =
      { currentQIndex := 0
        chatHist := [⟨"assistant", "intro"⟩, ⟨"user", "my answer"⟩]
        metricsBuffer := []
        metricsByQuestion := [(0, none)]
        savedResponses := [⟨0, "Q1", "my answer", none, 1⟩]
        sent := [.transcriptMsg 0 "my answer" none,
                 .notice "Error: All Groq LLM keys failed. Last error: boom2"]
        closed := false } := by
  refine ⟨c2_generation_failover.2.1 ["boom1", "boom2"], ?_⟩
  exact (c2_generation_failover.2.2 ["Q1", "Q2"] 1
    { llmClients := [Except.error "boom1", Except.error "boom2"], ttsClients := [],
      scoreClients := [], scorePrior := .error (), scoreWriteOk := true }
    { currentQIndex := 0, chatHist := [⟨"assistant", "intro"⟩], metricsBuffer := [],
      metricsByQuestion := [], savedResponses := [], sent := [], closed := false }
    "my answer" (some "boom2") (by decide) rfl).trans (by decide)

/-! ### Claim C8 -/

/-- C8: synthesis failure never suppresses the text reply.  With no
synthesis client configured the adapter returns `None`; when every
client in the pool fails (a raised call or an empty extraction) it
returns `None` rather than raising; and on a turn whose generation
succeeded but whose synthesis returned `None`, the orchestrator still
emits the `llm_response` message carrying the generated text with a null
audio field, appends the assistant entry and advances the cursor — the
turn is not aborted. -/
theorem c8_synthesis_failure_text_still_sent :
    tts_text_to_base64_wav [] = none
    ∧ (∀ clients : List TtsClient,
        (∀ v : PyVal, some v ∈ clients → extractBytes v = []) →
        tts_text_to_base64_wav clients = none)
    ∧ (∀ (questions : List String) (attempt : Nat) (o : Oracles) (st : SessionState)
        (t res : String), t ≠ "" →
        generate_interviewer_reply o.llmClients = .ok res →
        tts_text_to_base64_wav o.ttsClients = none →
        st.currentQIndex < questions.length - 1 →
        processMessage questions attempt o st (.audio t) =
          { st with
            metricsBuffer := (dictPop (st.currentQIndex : Int) st.metricsBuffer).2
            metricsByQuestion := dictInsert (st.currentQIndex : Int)
              (dictPop (st.currentQIndex : Int) st.metricsBuffer).1 st.metricsByQuestion
            chatHist := st.chatHist ++ [⟨"user", t⟩, ⟨"assistant", res⟩]
            savedResponses := st.savedResponses ++
              [⟨st.currentQIndex, questions.getD st.currentQIndex "", t,
                (dictPop (st.currentQIndex : Int) st.metricsBuffer).1, attempt⟩]
            sent := st.sent ++
              [.transcriptMsg st.currentQIndex t
                 (dictPop (st.currentQIndex : Int) st.metricsBuffer).1,
               .llmResponse res st.currentQIndex none]
            currentQIndex := st.currentQIndex + 1 }) := by
  refine ⟨rfl, ?_, ?_⟩
  · intro clients h
    induction clients with
    | nil => rfl
    | cons c rest ih =>
      have hrest : ∀ v : PyVal, some v ∈ rest → extractBytes v = [] := by
        intro v hv
        exact h v (List.mem_cons_of_mem c hv)
      cases c with
      | none => simpa [tts_text_to_base64_wav] using ih hrest
      | some v =>
        have hv : extractBytes v = [] := h v (List.mem_cons_self _ _)
        simpa [tts_text_to_base64_wav, hv] using ih hrest
  · intro questions attempt o st t res ht hgen htts hlt
    simp only [processMessage, if_neg ht, hgen, htts, if_pos hlt]
    simp [List.append_assoc]

/-- Witness for C8: a pool of two failing synthesis credentials (one
raised call, one whitespace-only string response, which extracts to
empty bytes) yields `None`, and the turn still completes with a
text-only reply. -/
theorem c8_synthesis_failure_text_still_sent_witness :
    tts_text_to_base64_wav [none, some (.pvStr " ")] = none
    ∧ processMessage ["Q1", "Q2"] 1
        { llmClients := [Except.ok "reply"], ttsClients := [none, some (.pvStr " ")],
          scoreClients := [], scorePrior := .error (), scoreWriteOk := true }
        { currentQIndex := 0, chatHist := [⟨"assistant", "intro"⟩], metricsBuffer := [],
          metricsByQuestion := [], savedResponses := [], sent := [], closed := false }
        (.audio "an answer") =
      { currentQIndex := 1
        chatHist := [⟨"assistant", "intro"⟩, ⟨"user", "an answer"⟩, ⟨"assistant", "reply"⟩]
        metricsBuffer := []
        metricsByQuestion := [(0, none)]
        savedResponses := [⟨0, "Q1", "an answer", none, 1⟩]
        sent := [.transcriptMsg 0 "an answer" none, .llmResponse "reply" 0 none]
        closed := false } := by
  refine ⟨?_, ?_⟩
  · exact c8_synthesis_failure_text_still_sent.2.1 [none, some (.pvStr " ")]
      (by intro v hv; simp at hv; subst hv; decide)
  · exact (c8_synthesis_failure_text_still_sent.2.2 ["Q1", "Q2"] 1
      { llmClients := [Except.ok "reply"], ttsClients := [none, some (.pvStr " ")],
        scoreClients := [], scorePrior := .error (), scoreWriteOk := true }
      { currentQIndex := 0, chatHist := [⟨"assistant", "intro"⟩], metricsBuffer := [],
        metricsByQuestion := [], savedResponses := [], sent := [], closed := false }
      "an answer" "reply" (by decide) rfl rfl (by decide)).trans (by decide)

/-! ### Claim C9 -/

/-- C9 (implicit behaviour): for a processed audio segment with a
non-empty transcript, the orchestrator consumes the pending metrics for
the current index, appends the user entry and persists the turn record,
and these effects survive a generation failure (the cursor stays put and
the session stays open); re-sending audio for the same index after such
a failure therefore appends a second user entry and persists a second
turn record for that index — turn persistence is once per successful
transcription, not idempotent by question index.  The pending metrics,
already consumed, are replaced by the empty default in the second
record. -/
theorem c9_no_rollback_duplicate_persistence
    (questions : List String) (attempt : Nat) (o : Oracles) (st : SessionState)
    (t : String) (e : Option String) (ht : t ≠ "")
    (hgen : generate_interviewer_reply o.llmClients = .error e)
    (hnd : (st.metricsBuffer.map Prod.fst).Nodup) :
    (processMessage questions attempt o st (.audio t)).savedResponses =
        st.savedResponses ++
          [⟨st.currentQIndex, questions.getD st.currentQIndex "", t,
            (dictPop (st.currentQIndex : Int) st.metricsBuffer).1, attempt⟩]
    ∧ (processMessage questions attempt o st (.audio t)).chatHist =
        st.chatHist ++ [⟨"user", t⟩]
    ∧ dictGet (st.currentQIndex : Int)
        (processMessage questions attempt o st (.audio t)).metricsBuffer = none
    ∧ (processMessage questions attempt o st (.audio t)).currentQIndex = st.currentQIndex
    ∧ (processMessage questions attempt o st (.audio t)).closed = st.closed
    ∧ (∀ (o2 : Oracles) (e2 : Option String),
        generate_interviewer_reply o2.llmClients = .error e2 →
        (processMessage questions attempt o2
            (processMessage questions attempt o st (.audio t)) (.audio t)).savedResponses =
          st.savedResponses ++
            [⟨st.currentQIndex, questions.getD st.currentQIndex "", t,
              (dictPop (st.currentQIndex : Int) st.metricsBuffer).1, attempt⟩,
             ⟨st.currentQIndex, questions.getD st.currentQIndex "", t, none, attempt⟩]
        ∧ (processMessage questions attempt o2
            (processMessage questions attempt o st (.audio t)) (.audio t)).chatHist =
          st.chatHist ++ [⟨"user", t⟩, ⟨"user", t⟩]) := by
  have hstep : processMessage questions attempt o st (.audio t) =
      { st with
        metricsBuffer := (dictPop (st.currentQIndex : Int) st.metricsBuffer).2
        metricsByQuestion := dictInsert (st.currentQIndex : Int)
          (dictPop (st.currentQIndex : Int) st.metricsBuffer).1 st.metricsByQuestion
        chatHist := st.chatHist ++ [⟨"user", t⟩]
        savedResponses := st.savedResponses ++
          [⟨st.currentQIndex, questions.getD st.currentQIndex "", t,
            (dictPop (st.currentQIndex : Int) st.metricsBuffer).1, attempt⟩]
        sent := st.sent ++
          [.transcriptMsg st.currentQIndex t
             (dictPop (st.currentQIndex : Int) st.metricsBuffer).1,
           .notice (errNoticeText e)] } := by
    simp only [processMessage, if_neg ht, hgen]
    simp [List.append_assoc]
  have hconsumed : dictGet (st.currentQIndex : Int)
      (processMessage questions attempt o st (.audio t)).metricsBuffer = none := by
    rw [hstep]
    exact dictGet_remove_self _ _ hnd
  refine ⟨by rw [hstep], by rw [hstep], hconsumed, by rw [hstep], by rw [hstep], ?_⟩
  intro o2 e2 hgen2
  have hstep2 : processMessage questions attempt o2
      (processMessage questions attempt o st (.audio t)) (.audio t) =
      { (processMessage questions attempt o st (.audio t)) with
        metricsBuffer := (dictPop ((processMessage questions attempt o st
          (.audio t)).currentQIndex : Int)
            (processMessage questions attempt o st (.audio t)).metricsBuffer).2
        metricsByQuestion := dictInsert ((processMessage questions attempt o st
          (.audio t)).currentQIndex : Int)
          (dictPop ((processMessage questions attempt o st (.audio t)).currentQIndex : Int)
            (processMessage questions attempt o st (.audio t)).metricsBuffer).1
          (processMessage questions attempt o st (.audio t)).metricsByQuestion
        chatHist := (processMessage questions attempt o st (.audio t)).chatHist ++
          [⟨"user", t⟩]
        savedResponses := (processMessage questions attempt o st (.audio t)).savedResponses ++
          [⟨(processMessage questions attempt o st (.audio t)).currentQIndex,
            questions.getD (processMessage questions attempt o st (.audio t)).currentQIndex "",
            t,
            (dictPop ((processMessage questions attempt o st (.audio t)).currentQIndex : Int)
              (processMessage questions attempt o st (.audio t)).metricsBuffer).1, attempt⟩]
        sent := (processMessage questions attempt o st (.audio t)).sent ++
          [.transcriptMsg (processMessage questions attempt o st (.audio t)).currentQIndex t
             (dictPop ((processMessage questions attempt o st (.audio t)).currentQIndex : Int)
               (processMessage questions attempt o st (.audio t)).metricsBuffer).1,
           .notice (errNoticeText e2)] } := by
    simp only [processMessage, if_neg ht, hgen2]
    simp [List.append_assoc]
  have hpop2 : (dictPop ((processMessage questions attempt o st (.audio t)).currentQIndex : Int)
      (processMessage questions attempt o st (.audio t)).metricsBuffer).1 = none := by
    rw [hstep]
    show (dictGet (st.currentQIndex : Int)
      (dictRemove (st.currentQIndex : Int) st.metricsBuffer)).getD none = none
    rw [dictGet_remove_self _ _ hnd]
    rfl
  constructor
  · rw [hstep2, hpop2, hstep]
    simp [List.append_assoc]
  · rw [hstep2, hstep]
    simp [List.append_assoc]

/-- Witness for C9: with a failing generation pool, sending the same
audio twice for question index `0` persists two turn records for index
`0` and appends two user history entries. -/
theorem c9_no_rollback_duplicate_persistence_witness :
    (processMessage ["Q1", "Q2"] 1
        { llmClients := [Except.error "down"], ttsClients := [], scoreClients := [],
          scorePrior := .error (), scoreWriteOk := true }
        (processMessage ["Q1", "Q2"] 1
          { llmClients := [Except.error "down"], ttsClients := [], scoreClients := [],
            scorePrior := .error (), scoreWriteOk := true }
          { currentQIndex := 0, chatHist := [], metricsBuffer := [(0, some noFieldMetrics)],
            metricsByQuestion := [], savedResponses := [], sent := [], closed := false }
          (.audio "same answer"))
        (.audio "same answer")).savedResponses =
      [⟨0, "Q1", "same answer", some noFieldMetrics, 1⟩,
       ⟨0, "Q1", "same answer", none, 1⟩] := by
  exact ((c9_no_rollback_duplicate_persistence ["Q1", "Q2"] 1
    { llmClients := [Except.error "down"], ttsClients := [], scoreClients := [],
      scorePrior := .error (), scoreWriteOk := true }
    { currentQIndex := 0, chatHist := [], metricsBuffer := [(0, some noFieldMetrics)],
      metricsByQuestion := [], savedResponses := [], sent := [], closed := false }
    "same answer" (some "down") (by decide) rfl (by decide)).2.2.2.2.2
    { llmClients := [Except.error "down"], ttsClients := [], scoreClients := [],
      scorePrior := .error (), scoreWriteOk := true }
    (some "down") rfl).1.trans (by decide)

/-! ### Claim C4 -/

/-- Whatever the generation, synthesis and scoring outcomes, processing
an audio message with a non-empty transcript removes exactly the current
key from the pending buffer and finalizes for the current index the
value that key held (defaulting to empty). -/
theorem processAudio_buffer_fields (questions : List String) (attempt : Nat)
    (o : Oracles) (st : SessionState) (t : String) (ht : t ≠ "") :
    (processMessage questions attempt o st (.audio t)).metricsBuffer =
        dictRemove (st.currentQIndex : Int) st.metricsBuffer
    ∧ (processMessage questions attempt o st (.audio t)).metricsByQuestion =
        dictInsert (st.currentQIndex : Int)
          ((dictGet (st.currentQIndex : Int) st.metricsBuffer).getD none)
          st.metricsByQuestion := by
  simp only [processMessage, if_neg ht]
  cases hg : generate_interviewer_reply o.llmClients with
  | error e => exact ⟨rfl, rfl⟩
  | ok res =>
    by_cases hlt : st.currentQIndex < questions.length - 1
    · simp only [if_pos hlt]
      exact ⟨rfl, rfl⟩
    · simp only [if_neg hlt]
      cases generate_final_score o.scoreClients with
      | ok sr => exact ⟨rfl, rfl⟩
      | error e2 => exact ⟨rfl, rfl⟩

/-- C4: metrics buffering and consumption.  A metrics notice tagged with
question index `j` is stored in the pending buffer under key `j` and
changes nothing else; processing the answer for the current index `i`
consumes exactly key `i` (the buffer afterwards is the buffer with key
`i` removed, every other key unchanged, and the finalized metrics for
`i` are whatever the buffer held under `i`, defaulting to empty); and in
particular a metrics notice for `i + 1` buffered while awaiting the
answer for `i` survives the turn for `i` untouched, is not applied to
`i`, and is applied to `i + 1` once the answer for `i + 1` is processed,
whatever the generation outcome of that later turn. -/
theorem c4_metrics_buffer_ordering :
    (∀ (questions : List String) (attempt : Nat) (o : Oracles) (st : SessionState)
        (j : Int) (m : Metrics),
        processMessage questions attempt o st (.metricsMsg (some j) m) =
          { st with metricsBuffer := dictInsert j m st.metricsBuffer })
    ∧ (∀ (questions : List String) (attempt : Nat) (o : Oracles) (st : SessionState)
        (t : String), t ≠ "" →
        ((processMessage questions attempt o st (.audio t)).metricsBuffer =
            dictRemove (st.currentQIndex : Int) st.metricsBuffer
          ∧ dictGet (st.currentQIndex : Int)
              (processMessage questions attempt o st (.audio t)).metricsByQuestion =
            some ((dictGet (st.currentQIndex : Int) st.metricsBuffer).getD none)
          ∧ ∀ j : Int, j ≠ (st.currentQIndex : Int) →
              dictGet j (processMessage questions attempt o st (.audio t)).metricsBuffer =
                dictGet j st.metricsBuffer))
    ∧ (∀ (questions : List String) (attempt : Nat) (o1 o2 : Oracles) (st : SessionState)
        (m : Metrics) (t1 t2 res : String),
        t1 ≠ "" → t2 ≠ "" →
        generate_interviewer_reply o1.llmClients = .ok res →
        st.currentQIndex < questions.length - 1 →
        dictGet ((st.currentQIndex : Int) + 1) st.metricsBuffer = some m →
        ((processMessage questions attempt o1 st (.audio t1)).currentQIndex =
            st.currentQIndex + 1
          ∧ dictGet ((st.currentQIndex : Int) + 1)
              (processMessage questions attempt o1 st (.audio t1)).metricsBuffer = some m
          ∧ dictGet (st.currentQIndex : Int)
              (processMessage questions attempt o1 st (.audio t1)).metricsByQuestion =
            some ((dictGet (st.currentQIndex : Int) st.metricsBuffer).getD none)
          ∧ dictGet ((st.currentQIndex : Int) + 1)
              (processMessage questions attempt o2
                (processMessage questions attempt o1 st (.audio t1))
                (.audio t2)).metricsByQuestion = some m)) := by
  refine ⟨?_, ?_, ?_⟩
  · intro questions attempt o st j m
    simp [processMessage]
  · intro questions attempt o st t ht
    obtain ⟨hbuf, hmbq⟩ := processAudio_buffer_fields questions attempt o st t ht
    refine ⟨hbuf, ?_, ?_⟩
    · rw [hmbq]
      exact dictGet_insert_self _ _ _
    · intro j hj
      rw [hbuf]
      exact dictGet_remove_ne _ _ hj _
  · intro questions attempt o1 o2 st m t1 t2 res ht1 ht2 hok hlt hbufm
    have hstep1 : processMessage questions attempt o1 st (.audio t1) =
        { st with
          metricsBuffer := (dictPop (st.currentQIndex : Int) st.metricsBuffer).2
          metricsByQuestion := dictInsert (st.currentQIndex : Int)
            (dictPop (st.currentQIndex : Int) st.metricsBuffer).1 st.metricsByQuestion
          chatHist := st.chatHist ++ [⟨"user", t1⟩, ⟨"assistant", res⟩]
          savedResponses := st.savedResponses ++
            [⟨st.currentQIndex, questions.getD st.currentQIndex "", t1,
              (dictPop (st.currentQIndex : Int) st.metricsBuffer).1, attempt⟩]
          sent := st.sent ++
            [.transcriptMsg st.currentQIndex t1
               (dictPop (st.currentQIndex : Int) st.metricsBuffer).1,
             .llmResponse res st.currentQIndex (tts_text_to_base64_wav o1.ttsClients)]
          currentQIndex := st.currentQIndex + 1 } := by
      simp only [processMessage, if_neg ht1, hok, if_pos hlt]
      simp [List.append_assoc]
    have hcursor : (processMessage questions attempt o1 st (.audio t1)).currentQIndex =
        st.currentQIndex + 1 := by rw [hstep1]
    have hkeep : dictGet ((st.currentQIndex : Int) + 1)
        (processMessage questions attempt o1 st (.audio t1)).metricsBuffer = some m := by
      rw [hstep1]
      show dictGet ((st.currentQIndex : Int) + 1)
        (dictRemove (st.currentQIndex : Int) st.metricsBuffer) = some m
      rw [dictGet_remove_ne _ _ (by omega) _]
      exact hbufm
    refine ⟨hcursor, hkeep, ?_, ?_⟩
    · rw [hstep1]
      show dictGet (st.currentQIndex : Int)
        (dictInsert (st.currentQIndex : Int)
          ((dictGet (st.currentQIndex : Int) st.metricsBuffer).getD none)
          st.metricsByQuestion) = some ((dictGet (st.currentQIndex : Int)
            st.metricsBuffer).getD none)
      exact dictGet_insert_self _ _ _
    · obtain ⟨_, hmbq2⟩ := processAudio_buffer_fields questions attempt o2
        (processMessage questions attempt o1 st (.audio t1)) t2 ht2
      rw [hmbq2, hcursor]
      have hcast : (((st.currentQIndex + 1 : Nat)) : Int) = (st.currentQIndex : Int) + 1 := by
        push_cast
        ring
      rw [hcast, hkeep]
      exact dictGet_insert_self _ _ _

/-- Witness for C4: with questions `["Q1", "Q2"]` and a metrics notice
for index `1` buffered while index `0` is awaited, the turn for index
`0` finalizes the empty default for `0`, keeps the notice for `1` in the
buffer, and the turn for index `1` finalizes exactly the buffered
notice. -/
theorem c4_metrics_buffer_ordering_witness :
    processMessage ["Q1", "Q2"] 1
        { llmClients := [Except.ok "reply"], ttsClients := [], scoreClients := [],
          scorePrior := .error (), scoreWriteOk := true }
        { currentQIndex := 0, chatHist := [], metricsBuffer := [], metricsByQuestion := [],
          savedResponses := [], sent := [], closed := false }
        (.metricsMsg (some 1) (some noFieldMetrics)) =
      { currentQIndex := 0, chatHist := [], metricsBuffer := [(1, some noFieldMetrics)],
        metricsByQuestion := [], savedResponses := [], sent := [], closed := false }
    ∧ dictGet 1
        (processMessage ["Q1", "Q2"] 1
          { llmClients := [Except.ok "reply"], ttsClients := [], scoreClients := [],
            scorePrior := .error (), scoreWriteOk := true }
          { currentQIndex := 0, chatHist := [], metricsBuffer := [(1, some noFieldMetrics)],
            metricsByQuestion := [], savedResponses := [], sent := [], closed := false }
          (.audio "a1")).metricsBuffer = some (some noFieldMetrics)
    ∧ dictGet 1
        (processMessage ["Q1", "Q2"] 1
          { llmClients := [Except.ok "closing"], ttsClients := [], scoreClients := [],
            scorePrior := .error (), scoreWriteOk := true }
          (processMessage ["Q1", "Q2"] 1
            { llmClients := [Except.ok "reply"], ttsClients := [], scoreClients := [],
              scorePrior := .error (), scoreWriteOk := true }
            { currentQIndex := 0, chatHist := [], metricsBuffer := [(1, some noFieldMetrics)],
              metricsByQuestion := [], savedResponses := [], sent := [], closed := false }
            (.audio "a1"))
          (.audio "a2")).metricsByQuestion = some (some noFieldMetrics) := by
  have h3 := c4_metrics_buffer_ordering.2.2 ["Q1", "Q2"] 1
    { llmClients := [Except.ok "reply"], ttsClients := [], scoreClients := [],
      scorePrior := .error (), scoreWriteOk := true }
    { llmClients := [Except.ok "closing"], ttsClients := [], scoreClients := [],
      scorePrior := .error (), scoreWriteOk := true }
    { currentQIndex := 0, chatHist := [], metricsBuffer := [(1, some noFieldMetrics)],
      metricsByQuestion := [], savedResponses := [], sent := [], closed := false }
    (some noFieldMetrics) "a1" "a2" "reply" (by decide) (by decide) rfl (by decide) (by decide)
  exact ⟨(c4_metrics_buffer_ordering.1 ["Q1", "Q2"] 1
    { llmClients := [Except.ok "reply"], ttsClients := [], scoreClients := [],
      scorePrior := .error (), scoreWriteOk := true }
    { currentQIndex := 0, chatHist := [], metricsBuffer := [], metricsByQuestion := [],
      savedResponses := [], sent := [], closed := false } 1 (some noFieldMetrics)).trans
      (by decide),
    h3.2.1, h3.2.2.2⟩

/-! ### Claim C7 -/

/-- Decidable test for membership in the four silence bands. -/
def isBandPart (p : String) : Bool :=
  decide (p ∈ bandStrings)

theorem ne_of_take2 {x y : String} (h : x.data.take 2 ≠ y.data.take 2) : x ≠ y :=
  fun e => h (by rw [e])

theorem ne_of_last {x y : String} (h : x.data.getLast? ≠ y.data.getLast?) : x ≠ y :=
  fun e => h (by rw [e])

theorem isBandPart_eq_false {x : String} (h : x ∉ bandStrings) : isBandPart x = false := by
  simp [isBandPart, h]

theorem speakingParts_no_band (m : DeliveryMetrics) :
    (speakingParts m).filter isBandPart = [] := by
  unfold speakingParts
  rcases m.speechDuration with _ | a
  · simp
  · rcases m.totalDuration with _ | b
    · simp
    · by_cases hz : a = 0 ∨ b = 0
      · simp [hz]
      · have hf : isBandPart
            ("spoke for " ++ qRepr a ++ "s out of " ++ qRepr b ++ "s total recording") =
            false := by
          apply isBandPart_eq_false
          intro hmem
          simp only [bandStrings, List.mem_cons, List.not_mem_nil, or_false] at hmem
          rcases hmem with h | h | h | h <;>
            exact ne_of_take2 (by
              rw [show ("spoke for " ++ qRepr a ++ "s out of " ++ qRepr b ++
                "s total recording").data.take 2 = ['s', 'p'] from rfl]
              decide) h
        simp [hz, List.filter, hf]

theorem suffix_not_band (x suf : String) (hsuf : suf.data ≠ [])
    (hne : ∀ b ∈ bandStrings, suf.data.getLast? ≠ b.data.getLast?) :
    (x ++ suf) ∉ bandStrings := by
  intro hmem
  have hl : (x ++ suf).data.getLast? = suf.data.getLast? := by
    show (x.data ++ suf.data).getLast? = suf.data.getLast?
    exact List.getLast?_append_of_ne_nil _ hsuf
  exact hne _ hmem hl.symm

theorem pauseParts_no_band (m : DeliveryMetrics) :
    (pauseParts m).filter isBandPart = [] := by
  unfold pauseParts
  rcases m.pauseCount with _ | n
  · simp
  · by_cases h0 : n = 0
    · simp [h0, List.filter, show isBandPart "no noticeable breaks" = false from by decide]
    · by_cases h2 : n ≤ 2
      · have hf := isBandPart_eq_false (suffix_not_band (natStr n) " brief pause(s)"
          (by decide) (by decide))
        simp [h0, h2, List.filter, hf]
      · have hf := isBandPart_eq_false (suffix_not_band (natStr n) " pauses detected"
          (by decide) (by decide))
        simp [h0, h2, List.filter, hf]

theorem latencyParts_no_band (m : DeliveryMetrics) :
    (latencyParts m).filter isBandPart = [] := by
  unfold latencyParts
  rcases m.startLatency with _ | l
  · simp
  · by_cases h1 : l < 1
    · simp [h1, List.filter, show isBandPart "responded immediately" = false from by decide]
    · by_cases h3 : l < 3
      · have hf : isBandPart ("started speaking after " ++ formatFixed1 l ++ "s") = false := by
          apply isBandPart_eq_false
          intro hmem
          simp only [bandStrings, List.mem_cons, List.not_mem_nil, or_false] at hmem
          rcases hmem with h | h | h | h <;>
            exact ne_of_take2 (by
              rw [show ("started speaking after " ++ formatFixed1 l ++
                "s").data.take 2 = ['s', 't'] from rfl]
              decide) h
        simp [h1, h3, List.filter, hf]
      · have hf : isBandPart ("took " ++ formatFixed1 l ++ "s to begin response") = false := by
          apply isBandPart_eq_false
          intro hmem
          simp only [bandStrings, List.mem_cons, List.not_mem_nil, or_false] at hmem
          rcases hmem with h | h | h | h <;>
            exact ne_of_take2 (by
              rw [show ("took " ++ formatFixed1 l ++
                "s to begin response").data.take 2 = ['t', 'o'] from rfl]
              decide) h
        simp [h1, h3, List.filter, hf]

/-- C7: the silence-ratio bands.  For every metrics bundle whose silence
ratio `r` is present, the `parts` making up the formatted descriptor
contain exactly one of the four qualitative band phrases, namely the one
selected by the threshold chain of the code at `r` (`< 0.2` very fluent,
`< 0.4` good fluency, `< 0.6` moderate pauses, otherwise significant
hesitation); the band index is monotone in `r` across the thresholds;
and the descriptor itself is the semicolon-join of those parts (in
particular it is never the empty-parts fallback). -/
theorem c7_silence_bands (m : DeliveryMetrics) (r : ℚ) (h : m.silenceRatio = some r) :
    (format_metrics_parts m).filter isBandPart = [bandStrings.getD (silenceBandIndex r) ""]
    ∧ silenceBandIndex r < 4
    ∧ (∀ r₁ r₂ : ℚ, r₁ ≤ r₂ → silenceBandIndex r₁ ≤ silenceBandIndex r₂)
    ∧ format_metrics (some m) = joinSemicolon (format_metrics_parts m) := by
  have hsil : (silenceParts m).filter isBandPart =
      [bandStrings.getD (silenceBandIndex r) ""] := by
    unfold silenceParts silenceBandIndex
    rw [h]
    by_cases h1 : r < 1/5
    · simp only [if_pos h1]
      simp [List.filter, isBandPart, bandStrings]
    · simp only [if_neg h1]
      by_cases h2 : r < 2/5
      · simp only [if_pos h2]
        simp [List.filter, isBandPart, bandStrings]
      · simp only [if_neg h2]
        by_cases h3 : r < 3/5
        · simp only [if_pos h3]
          simp [List.filter, isBandPart, bandStrings]
        · simp only [if_neg h3]
          simp [List.filter, isBandPart, bandStrings]
  refine ⟨?_, ?_, ?_, ?_⟩
  · unfold format_metrics_parts
    rw [List.filter_append, List.filter_append, List.filter_append]
    rw [speakingParts_no_band, pauseParts_no_band, latencyParts_no_band, hsil]
    simp
  · unfold silenceBandIndex
    split_ifs <;> omega
  · intro r₁ r₂ hr
    unfold silenceBandIndex
    split_ifs <;> first | omega | linarith
  · have hne : format_metrics_parts m ≠ [] := by
      unfold format_metrics_parts silenceParts
      rw [h]
      simp
    simp [format_metrics, hne]

/-- Witness for C7 at silence ratio `1/2`: the parts contain exactly the
`moderate pauses` band. -/
theorem c7_silence_bands_witness :
    (format_metrics_parts ⟨none, none, some (1/2), none, none⟩).filter isBandPart =
      [bandStrings.getD (silenceBandIndex (1/2)) ""] :=
  (c7_silence_bands ⟨none, none, some (1/2), none, none⟩ (1/2) rfl).1

/-! ### Claim C10 -/

/-- C10 counterexample: the claim that `_extract_bytes` returns
non-empty bytes for every non-empty string input is false.  The
non-empty string `" "` strips to the empty string, which base64-decodes
to the empty byte string, so the extraction returns empty bytes. -/
theorem c10_nonempty_string_counterexample :
    (" " : String) ≠ "" ∧ extractBytes (.pvStr " ") = [] := by
  exact ⟨by decide, by decide⟩

/-- C10 as amended: `_extract_bytes` is total by construction and a
string input is always handled by the string branch — the result is the
base64 decoding of the data-URL-stripped, whitespace-stripped string
when that decodes, and otherwise its UTF-8 encoding; it never falls
through to the later shape matchers.  The result is non-empty whenever
the stripped string does not base64-decode to the empty byte string
(whitespace-only or pure-padding strings are the exceptions). -/
theorem c10_string_branch_amended (s : String) :
    extractBytes (.pvStr s) = extractFromStr s
    ∧ (b64decode (pyStrip (stripDataUrl s)) ≠ some [] → extractBytes (.pvStr s) ≠ []) := by
  refine ⟨rfl, ?_⟩
  intro hb
  show extractFromStr s ≠ []
  unfold extractFromStr
  cases hdec : b64decode (pyStrip (stripDataUrl s)) with
  | some bs =>
    simp only [hdec]
    intro hnil
    exact hb (by rw [hdec, hnil])
  | none =>
    simp only [hdec]
    apply utf8Encode_ne_nil
    intro hnil
    have hs : pyStrip (stripDataUrl s) = "" := String.ext hnil
    rw [hs] at hdec
    exact absurd hdec (by decide)

/-- Witness for C10 (amended): the non-base64 string `"hello"` yields
its UTF-8 bytes, a non-empty extraction. -/
theorem c10_string_branch_amended_witness :
    extractBytes (.pvStr "hello") = extractFromStr "hello"
    ∧ extractBytes (.pvStr "hello") ≠ [] :=
  ⟨(c10_string_branch_amended "hello").1,
   (c10_string_branch_amended "hello").2 (by decide)⟩

end RagVoice
